import Mathlib

/-!
Verification development for the stabilize-orm execution core.

This file shallowly embeds the dialect-abstracting execution core of the
stabilize-orm TypeScript sources: the `DBClient` constructor and retry loop,
the placeholder translation for the Postgres dialect, the transaction
coordinator for the three dialect paths, the migration runner, and the
repository-level versioning/history engine.  Each definition is a direct
translation of the corresponding source function; theorems about them are
grouped at the end of the file.
-/

namespace Stabilize

/-- The three supported dialects (src `types.ts`, enum `DBType`). -/
inductive DBType where
  | Postgres
  | MySQL
  | SQLite
deriving DecidableEq, Repr

/-- Structured error type (src `types.ts`, class `StabilizeError`): a human
message plus a machine-readable code. -/
structure StabilizeError where
  message : String
  code : String
deriving DecidableEq, Repr

/-- The retry-relevant part of `DBConfig` (src `types.ts`): the three numeric
fields are optional (`retryAttempts?`, `retryDelay?`, `maxJitter?`); `none`
models an unset (undefined) field. -/
structure DBConfig where
  type : DBType
  retryAttempts : Option Int := none
  retryDelay : Option Int := none
  maxJitter : Option Int := none

/-- JavaScript `v || d` for an optional numeric config field: `undefined`
and `0` are falsy and yield the default `d`; any other number is returned
unchanged. -/
def jsNumOr (v : Option Int) (d : Int) : Int :=
  match v with
  | none => d
  | some x => if x = 0 then d else x

/-- The settings the `DBClient` constructor stores. -/
structure RetrySettings where
  retryAttempts : Int
  retryDelay : Int
  maxJitter : Int
deriving DecidableEq, Repr

/-- The `DBClient` constructor's retry-settings resolution (src `client.ts`
lines 61-63 and the identical lines of the alternate client in
`src/unnamed/part_009`):
`this.retryAttempts = config.retryAttempts || 3`,
`this.retryDelay = config.retryDelay || 1000`,
`this.maxJitter = config.maxJitter || 100`. -/
def resolveRetrySettings (config : DBConfig) : RetrySettings :=
  { retryAttempts := jsNumOr config.retryAttempts 3
    retryDelay := jsNumOr config.retryDelay 1000
    maxJitter := jsNumOr config.maxJitter 100 }

/-! ### Placeholder translation for the Postgres dialect -/

/-- Character walk behind `clientPgReplace`: `o` is the offset of the current
character in the original string.  A `?` at offset `o` is replaced by
`"$" ++ toString (o + 1)`. -/
def clientPgReplaceGo : List Char → Nat → List Char
  | [], _ => []
  | c :: cs, o =>
    (if c = '?' then '$' :: (toString (o + 1)).toList else [c])
      ++ clientPgReplaceGo cs (o + 1)

/-- The Postgres branch of `DBClient.query` (src `client.ts` line 125):
`query.replace(/\?/g, (_, i) => ...dollar...(i + 1))`.  The regex has no
capture groups, so the second argument `i` of the replacer is the match
OFFSET within the original string (JavaScript `String.replace` semantics),
not an incrementing counter: the `?` at character offset `o` becomes the
placeholder `$(o+1)`. -/
def clientPgReplace (q : String) : String :=
  ⟨clientPgReplaceGo q.toList 0⟩

/-- Counter walk behind `formatQuery`: the `n`-th `?` (counting from `n`)
becomes `$n`, and the counter increments. -/
def formatQueryGo : List Char → Nat → List Char
  | [], _ => []
  | c :: cs, n =>
    if c = '?' then ('$' :: (toString n).toList) ++ formatQueryGo cs (n + 1)
    else c :: formatQueryGo cs n

/-- `formatQuery` (src `migrations.ts` lines 170-176, second version): for the
Postgres dialect, replaces each `?` with `$paramIndex` where `paramIndex`
starts at 1 and increments per replacement; other dialects get the query
unchanged. -/
def formatQuery (query : String) (dbType : DBType) : String :=
  if dbType = DBType.Postgres then ⟨formatQueryGo query.toList 1⟩ else query

/-- Builds the query string `s0 ? s1 ? ... ? sn` from its `?`-free segments:
`interleaveQ [s0, s1, ..., sn]` places one `?` between adjacent segments. -/
def interleaveQ : List (List Char) → List Char
  | [] => []
  | [s] => s
  | s :: rest => s ++ '?' :: interleaveQ rest

/-- The numbered form the spec asks for: segments interleaved with `$n`
counting from `n` upward in strictly left-to-right order. -/
def interleaveDollar : List (List Char) → Nat → List Char
  | [], _ => []
  | [s], _ => s
  | s :: rest, n => s ++ ('$' :: (toString n).toList) ++ interleaveDollar rest (n + 1)

/-! ### Query executor retry loop -/

/-- A database row, as the property map the drivers return. -/
abbrev Row := List (String × Int)

/-- Observable outcome of one `DBClient.query` call: how many execution
attempts ran, the backoff delays awaited between attempts, and the final
result. -/
structure QueryRun where
  attemptsMade : Nat
  delays : List ℚ
  result : Except StabilizeError (List Row)
deriving Repr

/-- The retry loop of `DBClient.query`
(`for (let attempt = 1; attempt <= this.retryAttempts; attempt++)`),
translated with explicit fuel: `attempt` is the loop counter and `left`
the number of iterations the loop has still to run.  `exec` is the dialect
driver's execution of the statement on a given attempt (rows on success, the
underlying error message on failure); `k` is `retryAttempts`, `d` is
`retryDelay`, `jit attempt` the value of `Math.random() * this.maxJitter`
drawn before the wait that follows `attempt`; `wrap` builds the
`StabilizeError` thrown when the final attempt fails.  On a non-final
failure the loop waits `retryDelay * 2^(attempt-1) + jitter` and retries;
when the loop body never runs the trailing
`throw new StabilizeError("Query failed: no attempts made", "QUERY_ERROR")`
is reached. -/
def queryGo (exec : Nat → Except String (List Row)) (k : Nat) (d : ℚ)
    (jit : Nat → ℚ) (wrap : String → StabilizeError) :
    Nat → Nat → QueryRun
  | _, 0 =>
    { attemptsMade := 0
      delays := []
      result := .error ⟨"Query failed: no attempts made", "QUERY_ERROR"⟩ }
  | attempt, left + 1 =>
    match exec attempt with
    | .ok rows => { attemptsMade := 1, delays := [], result := .ok rows }
    | .error m =>
      if attempt = k then
        { attemptsMade := 1, delays := [], result := .error (wrap m) }
      else
        let rest := queryGo exec k d jit wrap (attempt + 1) left
        { attemptsMade := rest.attemptsMade + 1
          delays := (d * 2 ^ (attempt - 1) + jit attempt) :: rest.delays
          result := rest.result }

/-- Error wrapper of `DBClient.query` in src `client.ts` line 135:
`new StabilizeError("Query failed: " + error.message, "QUERY_ERROR")` —
the message does not mention the attempt count. -/
def clientQueryWrap (m : String) : StabilizeError :=
  ⟨"Query failed: " ++ m, "QUERY_ERROR"⟩

/-- Error wrapper of the alternate `DBClient.query` in `src/unnamed/part_009`
lines 282-284: the message is
`"Query failed after " ++ retryAttempts ++ " attempts: " ++ error.message`. -/
def part009QueryWrap (k : Nat) (m : String) : StabilizeError :=
  ⟨"Query failed after " ++ toString k ++ " attempts: " ++ m, "QUERY_ERROR"⟩

/-- `DBClient.query` of src `client.ts` (lines 106-140), restricted to its
retry/error behavior: runs the loop from `attempt = 1` with `retryAttempts`
iterations available. -/
def clientQuery (exec : Nat → Except String (List Row)) (k : Nat) (d : ℚ)
    (jit : Nat → ℚ) : QueryRun :=
  queryGo exec k d jit clientQueryWrap 1 k

/-- `DBClient.query` of `src/unnamed/part_009` (lines 261-296): the same loop
with the attempt-counting error message. -/
def part009Query (exec : Nat → Except String (List Row)) (k : Nat) (d : ℚ)
    (jit : Nat → ℚ) : QueryRun :=
  queryGo exec k d jit (part009QueryWrap k) 1 k

/-- Whether an `Except` result is a success, as a Boolean observation. -/
def exceptIsOk : Except ε α → Bool
  | .ok _ => true
  | .error _ => false

/-! ### Transaction coordinator

The underlying engines (bun:sqlite, mysql2, pg) provide standard SQL
transaction semantics: statements executed after `BEGIN`/`START TRANSACTION`
go to a per-connection buffer that becomes visible only on `COMMIT` and is
discarded on `ROLLBACK`.  `Conn` embeds one checked-out connection with that
semantics; the `DBClient.transaction` control flow of `src/client.ts` is then
translated over it. -/

/-- A key-value store standing for the visible database contents. -/
abbrev Store := List (String × Int)

/-- Sets key `k` to `v`, replacing an existing binding. -/
def storeSet : Store → String → Int → Store
  | [], k, v => [(k, v)]
  | (k', v') :: rest, k, v =>
    if k' = k then (k, v) :: rest else (k', v') :: storeSet rest k v

/-- One checked-out connection: the committed store, the open transaction
buffer (if any), and a fault-injection field making the `ROLLBACK` statement
fail with the given driver message (a dead connection). -/
structure Conn where
  committed : Store
  txn : Option Store
  rollbackFailure : Option String

/-- `BEGIN` / `START TRANSACTION`: opens a buffer snapshotting the committed
store. -/
def beginTx (c : Conn) : Conn :=
  { c with txn := some c.committed }

/-- A write statement: goes to the open transaction buffer, or directly to
the committed store in autocommit mode. -/
def writeTx (c : Conn) (k : String) (v : Int) : Conn :=
  match c.txn with
  | some b => { c with txn := some (storeSet b k v) }
  | none => { c with committed := storeSet c.committed k v }

/-- `COMMIT`: publishes the buffer. -/
def commitTx (c : Conn) : Conn :=
  match c.txn with
  | some b => { c with committed := b, txn := none }
  | none => c

/-- `ROLLBACK`: discards the buffer, unless the statement itself fails. -/
def rollbackTx (c : Conn) : Except String Conn :=
  match c.rollbackFailure with
  | some m => .error m
  | none => .ok { c with txn := none }

/-- A transaction callback as the claims exercise it: it performs a list of
writes through the transaction-scoped client and then either returns
normally or throws an error with the given message. -/
structure TxCallback where
  writes : List (String × Int)
  outcome : Except String Unit

/-- Runs the callback's writes in order on the connection. -/
def runWrites (c : Conn) (ws : List (String × Int)) : Conn :=
  ws.foldl (fun c kv => writeTx c kv.1 kv.2) c

/-- Error surfaced by `DBClient.transaction`: either the callback's own error
rethrown, or a `StabilizeError` raised by a query on the control path. -/
inductive TxError where
  | cb (message : String)
  | stabilize (e : StabilizeError)
deriving DecidableEq, Repr

/-- Observable outcome of one `DBClient.transaction` call on a pooled
backend: the result, the visible committed store afterwards, whether the
checked-out connection was released back to the pool, and the transaction
control statements issued. -/
structure TxOutcome where
  result : Except TxError Unit
  db : Store
  released : Bool
  control : List String
deriving Repr

/-- The pooled-backend branches of `DBClient.transaction` (src `client.ts`
lines 164-198): check out a connection, issue the begin statement, run the
callback on a transaction-scoped client bound to that connection, `COMMIT`
on normal return; on a thrown error run `await txClient.query("ROLLBACK")`
and rethrow the original error — the `ROLLBACK` call is not guarded, so if
it throws, its `StabilizeError` (the wrap `DBClient.query` puts on a failed
statement) propagates instead of the callback error.  The `finally` block
releases the connection on every path. -/
def pooledTransaction (beginStmt : String) (db : Store) (cb : TxCallback)
    (rollbackFailure : Option String) : TxOutcome :=
  let c0 : Conn := { committed := db, txn := none, rollbackFailure := rollbackFailure }
  let c1 := beginTx c0
  let c2 := runWrites c1 cb.writes
  match cb.outcome with
  | .ok _ =>
    let c3 := commitTx c2
    { result := .ok ()
      db := c3.committed
      released := true
      control := [beginStmt, "COMMIT"] }
  | .error e =>
    match rollbackTx c2 with
    | .ok c3 =>
      { result := .error (.cb e)
        db := c3.committed
        released := true
        control := [beginStmt, "ROLLBACK"] }
    | .error m =>
      { result := .error (.stabilize (clientQueryWrap m))
        db := c2.committed
        released := true
        control := [beginStmt, "ROLLBACK"] }

/-- The MySQL branch (src `client.ts` lines 164-180): `START TRANSACTION`
then `COMMIT`/`ROLLBACK`. -/
def mysqlTransaction (db : Store) (cb : TxCallback)
    (rollbackFailure : Option String) : TxOutcome :=
  pooledTransaction "START TRANSACTION" db cb rollbackFailure

/-- The Postgres branch (src `client.ts` lines 182-198): `BEGIN` then
`COMMIT`/`ROLLBACK`. -/
def pgTransaction (db : Store) (cb : TxCallback)
    (rollbackFailure : Option String) : TxOutcome :=
  pooledTransaction "BEGIN" db cb rollbackFailure

/-- The SQLite branch (src `client.ts` lines 159-162): delegates to the
bun:sqlite native transaction wrapper, whose documented semantics are
`BEGIN`, run the block, `COMMIT` on normal return, `ROLLBACK` and rethrow
on a thrown error. -/
def sqliteTransaction (db : Store) (cb : TxCallback) :
    Except String Unit × Store :=
  let c2 := runWrites (beginTx { committed := db, txn := none, rollbackFailure := none }) cb.writes
  match cb.outcome with
  | .ok _ => (.ok (), (commitTx c2).committed)
  | .error e =>
    match rollbackTx c2 with
    | .ok c3 => (.error e, c3.committed)
    | .error _ => (.error e, c2.committed)

/-! ### Migration runner -/

/-- A migration (src `types.ts`, interface `Migration`): a unique name plus
`up`/`down` statement lists.  The first `generateMigration` version returns
objects without a `name` field; the empty string models that absent
(falsy) name. -/
structure Migration where
  name : String
  up : List String
  down : List String
deriving DecidableEq, Repr

/-- Name under which the second `runMigrations` (src `migrations.ts` line
409) records a migration in the ledger:
`migration.name || "migration_" + index + "_" + Date.getTime()` — the
caller-supplied name when it is truthy (non-empty), otherwise a fresh
timestamp-derived fallback. -/
def migrationKeyV2 (m : Migration) (index : Nat) (now : Nat) : String :=
  if m.name = "" then "migration_" ++ toString index ++ "_" ++ toString now
  else m.name

/-- Name under which the first `runMigrations` (src `migrations.ts` line 125)
records a migration:
`"migration_" + index + "_" + new Date().toISOString()...` — always derived
from the current run's timestamp, never from the migration itself. -/
def migrationKeyV1 (index : Nat) (ts : String) : String :=
  "migration_" ++ toString index ++ "_" ++ ts

/-- The migration loop shared by both `runMigrations` versions, on the
success path (every SQL statement succeeds): for each migration in order,
compute its ledger key; if the key is already in the ledger skip it
entirely, otherwise execute all of its `up` statements and insert the key
into the ledger.  Returns the final ledger and the trace of executed `up`
statements. -/
def migrateGo (key : Migration → Nat → String) :
    List Migration → Nat → List String → List String × List String
  | [], _, ledger => (ledger, [])
  | m :: rest, index, ledger =>
    let name := key m index
    if name ∈ ledger then migrateGo key rest (index + 1) ledger
    else
      let r := migrateGo key rest (index + 1) (ledger ++ [name])
      (r.1, m.up ++ r.2)

/-- The second `runMigrations` (src `migrations.ts` lines 402-434) against a
given initial ledger, with `now` the run's clock reading used by the
fallback name. -/
def runMigrationsV2 (now : Nat) (ledger : List String)
    (migrations : List Migration) : List String × List String :=
  migrateGo (fun m index => migrationKeyV2 m index now) migrations 0 ledger

/-- The first `runMigrations` (src `migrations.ts` lines 116-144) against a
given initial ledger, with `ts` the run's timestamp string. -/
def runMigrationsV1 (ts : String) (ledger : List String)
    (migrations : List Migration) : List String × List String :=
  migrateGo (fun _ index => migrationKeyV1 index ts) migrations 0 ledger

/-! ### Versioning/history engine (src `repository.ts`)

Entities are property maps from column property keys to JavaScript values.
The claims exercise models whose property keys coincide with their SQL
column names, so the two are identified here.  Timestamps are integers. -/

/-- A JavaScript value as the value layer of `repository.ts` sees it.  A
`Date` is represented by its ISO-8601 `toISOString()` rendering. -/
inductive JSVal where
  | undefinedJs
  | null
  | bool (b : Bool)
  | num (n : Int)
  | str (s : String)
  | bigint (n : Int)
  | date (iso : String)
  | object
  | array
deriving DecidableEq, Repr

/-- A bound SQL parameter, as `sanitizeSqlValue` produces it:
`string | number | boolean | bigint | null`, where booleans have already
been replaced with `1`/`0` numbers. -/
inductive SqlParam where
  | null
  | num (n : Int)
  | big (n : Int)
  | str (s : String)
deriving DecidableEq, Repr

/-- Replaces the first `'T'` in a character list with a space, as the
JavaScript `replace('T', ' ')` on a string does. -/
def replaceFirstT : List Char → List Char
  | [] => []
  | c :: cs => if c = 'T' then ' ' :: cs else c :: replaceFirstT cs

/-- `val.toISOString().slice(0, 19).replace('T', ' ')` — the MySQL `DATETIME`
rendering of a `Date` (src `repository.ts` line 346). -/
def mysqlDatetime (iso : String) : String :=
  ⟨replaceFirstT (iso.toList.take 19)⟩

/-- `sanitizeSqlValue` (src `repository.ts` lines 341-357), in the source's
check order: `undefined` first, then `Date` (MySQL-truncated or plain ISO),
then booleans to `1`/`0`, then strings/numbers/bigints passed through, and
everything else (`null`, objects, arrays) to SQL `NULL`. -/
def sanitizeSqlValue (val : JSVal) (dbType : DBType) : SqlParam :=
  match val with
  | .undefinedJs => .null
  | .date iso =>
    if dbType = DBType.MySQL then .str (mysqlDatetime iso) else .str iso
  | .bool b => .num (if b then 1 else 0)
  | .str s => .str s
  | .num n => .num n
  | .bigint n => .big n
  | .null => .null
  | .object => .null
  | .array => .null

/-- An entity as a property map (association list, first binding wins). -/
abbrev Props := List (String × JSVal)

/-- JavaScript property read: a missing property is `undefined`. -/
def lookupVal : Props → String → JSVal
  | [], _ => .undefinedJs
  | kv :: rest, k => if kv.1 = k then kv.2 else lookupVal rest k

/-- Sets property `k` to `v`, replacing an existing binding. -/
def setVal : Props → String → JSVal → Props
  | [], k, v => [(k, v)]
  | (k', v') :: rest, k, v =>
    if k' = k then (k, v) :: rest else (k', v') :: setVal rest k v

/-- JavaScript `entity.version || 1` for a stored version value: a missing,
null or zero version is falsy and yields 1 (src `repository.ts` line 363). -/
def jsVersionOr1 : JSVal → Int
  | .num n => if n = 0 then 1 else n
  | _ => 1

/-- JavaScript `before.version ? before.version + 1 : 1` (src `repository.ts`
line 649): the stored numeric version incremented when truthy, otherwise 1.
Non-numeric version values are not exercised by the models. -/
def versionSucc : JSVal → Int
  | .num n => if n = 0 then 1 else n + 1
  | _ => 1

/-- A row of the `<table>_history` table: the full column snapshot plus the
bookkeeping columns `writeHistory` appends. -/
structure HistRow where
  id : Int
  version : Int
  operation : String
  snapshot : Props
  validFrom : Int
  validTo : Option Int
  modifiedBy : String
deriving DecidableEq, Repr

/-- Database state seen by one repository: the live table (rows keyed by id)
and the history table (rows in insertion order). -/
structure RepoState where
  live : List (Int × Props)
  hist : List HistRow
deriving DecidableEq, Repr

/-- `findOne` restricted to the lookup the versioning paths use: the live row
with the given id. -/
def findOneLive : List (Int × Props) → Int → Option Props
  | [], _ => none
  | r :: rest, id => if r.1 = id then some r.2 else findOneLive rest id

/-- `writeHistory` (src `repository.ts` lines 319-381) for a versioned model:
inserts one history row whose snapshot reads every model column off the
entity (a missing column reads as `undefined`), with
`operation` as given, `version = entity.version || 1`,
`valid_from = now`, `valid_to = NULL` and `modified_by = "system"`.
The per-value SQL coercion applied to the bound parameters is
`sanitizeSqlValue`, modelled separately by `writeHistoryParams`. -/
def writeHistory (columns : List String) (st : RepoState) (id : Int)
    (entity : Props) (operation : String) (now : Int) : RepoState :=
  { st with
      hist := st.hist ++
        [{ id := id
           version := jsVersionOr1 (lookupVal entity "version")
           operation := operation
           snapshot := columns.map (fun k => (k, lookupVal entity k))
           validFrom := now
           validTo := none
           modifiedBy := "system" }] }

/-- The bound parameter list `writeHistory` builds (src `repository.ts`
lines 359-368): the sanitized column values followed by the sanitized
bookkeeping values. -/
def writeHistoryParams (propertyKeys : List String) (entity : Props)
    (operation : String) (nowIso : String) (user : Option String)
    (dbType : DBType) : List SqlParam :=
  propertyKeys.map (fun k => sanitizeSqlValue (lookupVal entity k) dbType) ++
    [sanitizeSqlValue (.str operation) dbType,
     sanitizeSqlValue (.num (jsVersionOr1 (lookupVal entity "version"))) dbType,
     sanitizeSqlValue (.date nowIso) dbType,
     sanitizeSqlValue .null dbType,
     sanitizeSqlValue (.str (match user with | some u => u | none => "system")) dbType,
     sanitizeSqlValue (.date nowIso) dbType]

/-- `Repository.create` (src `repository.ts` lines 393-412 and `_create`):
inside a transaction, inserts the entity's declared-column values as a new
live row with the database-assigned id, re-reads the stored row, and writes
an `"insert"` history row for it.  The stored row has no version column
value, so the history version is `result.version || 1 = 1` unless the
caller supplied one. -/
def repoCreate (columns : List String) (st : RepoState) (newId : Int)
    (entity : Props) (now : Int) : RepoState :=
  let stored := setVal (entity.filter (fun kv => kv.1 ∈ columns)) "id" (.num newId)
  let live := st.live ++ [(newId, stored)]
  writeHistory columns { st with live := live } newId stored "insert" now

/-- Merge of `{...before, ...entity}`: properties of `entity` override those
of `before`. -/
def mergeProps (before entity : Props) : Props :=
  entity.foldl (fun acc kv => setVal acc kv.1 kv.2) before

/-- Replaces the props of the live row with the given id. -/
def putLive : List (Int × Props) → Int → Props → List (Int × Props)
  | [], _, _ => []
  | r :: rest, id, props =>
    if r.1 = id then (id, props) :: rest else r :: putLive rest id props

/-- `Repository.update` (src `repository.ts` lines 633-655 and `_update`):
inside a transaction, reads the live row (`before`), fails with an
`UPDATE_ERROR` when absent, applies the patch's declared-column values to
the live row, and writes an `"update"` history row for
`{...before, ...entity, version: before.version ? before.version + 1 : 1}`.
The computed version is placed only in the history row; the live row is
never given a version value by this path. -/
def repoUpdate (columns : List String) (st : RepoState) (id : Int)
    (patch : Props) (now : Int) : Except StabilizeError (RepoState × Props) :=
  match findOneLive st.live id with
  | none => .error ⟨"Not found", "UPDATE_ERROR"⟩
  | some before =>
    let keys := patch.filter (fun kv => kv.1 ∈ columns)
    let after := keys.foldl (fun acc kv => setVal acc kv.1 kv.2) before
    let live := putLive st.live id after
    let histEntity := setVal (mergeProps before patch) "version"
      (.num (versionSucc (lookupVal before "version")))
    let st := writeHistory columns { st with live := live } id histEntity "update" now
    .ok (st, after)

/-- Insertion step of `ORDER BY version ASC` (stable for equal versions). -/
def insertByVersionAsc (r : HistRow) : List HistRow → List HistRow
  | [] => [r]
  | x :: xs =>
    if r.version < x.version then r :: x :: xs else x :: insertByVersionAsc r xs

/-- `ORDER BY version ASC` as an insertion sort. -/
def sortByVersionAsc (rows : List HistRow) : List HistRow :=
  rows.foldr insertByVersionAsc []

/-- Insertion step of `ORDER BY version DESC`. -/
def insertByVersionDesc (r : HistRow) : List HistRow → List HistRow
  | [] => [r]
  | x :: xs =>
    if x.version < r.version then r :: x :: xs else x :: insertByVersionDesc r xs

/-- `ORDER BY version DESC` as an insertion sort. -/
def sortByVersionDesc (rows : List HistRow) : List HistRow :=
  rows.foldr insertByVersionDesc []

/-- `Repository.history` (src `repository.ts` lines 269-279):
`SELECT * FROM <table>_history WHERE id = ? ORDER BY version ASC`. -/
def repoHistory (st : RepoState) (id : Int) : List HistRow :=
  sortByVersionAsc (st.hist.filter (fun r => r.id = id))

/-- The `WHERE` predicate of `asOf` on one history row:
`id = ? AND valid_from <= ? AND (valid_to IS NULL OR valid_to > ?)`. -/
def asOfMatches (id : Int) (date : Int) (r : HistRow) : Bool :=
  r.id = id && r.validFrom ≤ date &&
    (match r.validTo with
     | none => true
     | some t => date < t)

/-- `Repository.asOf` (src `repository.ts` lines 252-264):
`SELECT * FROM <table>_history WHERE id = ? AND valid_from <= ? AND
(valid_to IS NULL OR valid_to > ?) ORDER BY version DESC LIMIT 1`,
returning null when no row qualifies. -/
def repoAsOf (st : RepoState) (id : Int) (date : Int) : Option HistRow :=
  (sortByVersionDesc (st.hist.filter (asOfMatches id date))).head?

/-- `Repository.rollback` (src `repository.ts` lines 284-310): inside one
transaction, selects the history row with the requested id and version
(`LIMIT 1`), failing with a `ROLLBACK_ERROR` when none exists; applies that
row's values for every column except `id` as an `UPDATE` to the live table;
writes an `"update"` history row for `{...entity, version: version + 1}`
(the REQUESTED version plus one); and returns the freshly re-read live
record. -/
def repoRollback (columns : List String) (st : RepoState) (id : Int)
    (version : Int) (now : Int) :
    Except StabilizeError (RepoState × Option Props) :=
  match (st.hist.filter (fun r => r.id = id && r.version = version)).take 1 with
  | [] => .error ⟨"Version not found", "ROLLBACK_ERROR"⟩
  | r :: _ =>
    let cols := columns.filter (fun c => c ≠ "id")
    let live :=
      match findOneLive st.live id with
      | some before =>
        putLive st.live id
          (cols.foldl (fun acc c => setVal acc c (lookupVal r.snapshot c)) before)
      | none => st.live
    let histEntity := setVal r.snapshot "version" (.num (version + 1))
    let st := writeHistory columns { st with live := live } id histEntity "update" now
    .ok (st, findOneLive st.live id)

/-- History table of a successful repository operation (empty on error). -/
def exceptHist : Except StabilizeError (RepoState × Option Props) → List HistRow
  | .ok p => p.1.hist
  | .error _ => []

/-- Live table of a successful repository operation (empty on error). -/
def exceptLive : Except StabilizeError (RepoState × Option Props) → List (Int × Props)
  | .ok p => p.1.live
  | .error _ => []

/-- Returned record of a successful repository operation. -/
def exceptRet : Except StabilizeError (RepoState × Option Props) → Option Props
  | .ok p => p.2
  | .error _ => none

/-- Property read on the record returned by a repository operation
(`undefined` when the operation failed or returned nothing). -/
def retLookup (x : Except StabilizeError (RepoState × Option Props))
    (c : String) : JSVal :=
  match x with
  | .ok (_, some ret) => lookupVal ret c
  | _ => .undefinedJs

/-! ## Claim proofs -/

/-- Claim C9: zero-valued or unset retry configuration is replaced by the
defaults — `retryAttempts` 0/unset becomes 3, `retryDelay` 0/unset becomes
1000 ms, `maxJitter` 0/unset becomes 100 ms, so passing 0 cannot configure a
single-attempt executor. -/
theorem retry_config_zero_defaults (cfg : DBConfig) :
    (resolveRetrySettings { cfg with retryAttempts := none }).retryAttempts = 3 ∧
    (resolveRetrySettings { cfg with retryAttempts := some 0 }).retryAttempts = 3 ∧
    (resolveRetrySettings { cfg with retryDelay := none }).retryDelay = 1000 ∧
    (resolveRetrySettings { cfg with retryDelay := some 0 }).retryDelay = 1000 ∧
    (resolveRetrySettings { cfg with maxJitter := none }).maxJitter = 100 ∧
    (resolveRetrySettings { cfg with maxJitter := some 0 }).maxJitter = 100 ∧
    (resolveRetrySettings { cfg with retryAttempts := some 0 }).retryAttempts ≠ 1 := by
  simp [resolveRetrySettings, jsNumOr]

/-- Claim C2: the Postgres placeholder rewrite actually executed by
`DBClient.query` numbers each `?` by its character offset plus one, not by
an incrementing index: on `"SELECT ?, ?"` it produces `"SELECT $8, $11"`,
while the repaired `formatQuery` helper produces the claimed
`"SELECT $1, $2"`. -/
theorem client_pg_placeholder_offset_bug :
    clientPgReplace "SELECT ?, ?" = "SELECT $8, $11" ∧
    formatQuery "SELECT ?, ?" DBType.Postgres = "SELECT $1, $2" ∧
    clientPgReplace "SELECT ?, ?" ≠ formatQuery "SELECT ?, ?" DBType.Postgres := by
  refine ⟨rfl, rfl, ?_⟩
  decide

/-- Claim C10: `sanitizeSqlValue` stores `undefined`, `null`, objects and
arrays as SQL `NULL`; booleans as 1/0; `Date`s as their ISO-8601 string,
truncated to `YYYY-MM-DD HH:MM:SS` for MySQL only; and passes strings,
numbers and bigints through unchanged — and the history-row parameter list
built by `writeHistory` applies exactly this sanitization to every column
value. -/
theorem sanitize_history_values (db : DBType) (b : Bool) (s : String)
    (n m : Int) (iso : String) (keys : List String) (entity : Props)
    (op nowIso : String) (user : Option String) :
    sanitizeSqlValue .undefinedJs db = .null ∧
    sanitizeSqlValue .null db = .null ∧
    sanitizeSqlValue .object db = .null ∧
    sanitizeSqlValue .array db = .null ∧
    sanitizeSqlValue (.bool b) db = .num (if b then 1 else 0) ∧
    sanitizeSqlValue (.str s) db = .str s ∧
    sanitizeSqlValue (.num n) db = .num n ∧
    sanitizeSqlValue (.bigint m) db = .big m ∧
    sanitizeSqlValue (.date iso) DBType.MySQL = .str (mysqlDatetime iso) ∧
    sanitizeSqlValue (.date iso) DBType.Postgres = .str iso ∧
    sanitizeSqlValue (.date iso) DBType.SQLite = .str iso ∧
    mysqlDatetime "2025-10-15T20:55:49.123Z" = "2025-10-15 20:55:49" ∧
    (writeHistoryParams keys entity op nowIso user db).take keys.length =
      keys.map (fun k => sanitizeSqlValue (lookupVal entity k) db) := by
  refine ⟨rfl, rfl, rfl, rfl, rfl, rfl, rfl, rfl, rfl, rfl, rfl, by decide, ?_⟩
  simp only [writeHistoryParams]
  exact List.take_left' (by simp)

/-- On an always-failing statement, the retry loop starting at `attempt` with
`left` iterations available (where `attempt + left = retryAttempts + 1`)
makes exactly `left` attempts, waits the exponential-backoff-plus-jitter
delay after each non-final attempt, and ends in the wrapped error built from
the final attempt's message. -/
theorem queryGo_always_fails (exec : Nat → Except String (List Row))
    (msg : Nat → String) (k : Nat) (d : ℚ) (jit : Nat → ℚ)
    (wrap : String → StabilizeError)
    (hexec : ∀ n, exec n = .error (msg n)) :
    ∀ left attempt, 1 ≤ left → attempt + left = k + 1 →
      queryGo exec k d jit wrap attempt left =
        { attemptsMade := left
          delays := (List.range' attempt (left - 1)).map
            (fun a => d * 2 ^ (a - 1) + jit a)
          result := .error (wrap (msg k)) } := by
  intro left
  induction left with
  | zero => intro attempt h1 _; omega
  | succ l ih =>
    intro attempt _ hsum
    rcases Nat.eq_zero_or_pos l with hl | hl
    · subst hl
      have hak : attempt = k := by omega
      subst hak
      simp [queryGo, hexec]
    · have hak : attempt ≠ k := by omega
      have hrec := ih (attempt + 1) hl (by omega)
      simp only [queryGo, hexec, hak, if_false, hrec]
      have hr : List.range' attempt l =
          attempt :: List.range' (attempt + 1) (l - 1) := by
        have hl1 : l = (l - 1) + 1 := by omega
        rw [hl1, List.range'_succ]
        simp
      simp [hr]

/-- Claim C4 (amended): with `retryAttempts = k ≥ 1` and an always-failing
statement, both `DBClient.query` variants perform exactly k attempts, wait
`retryDelay * 2^(attempt-1) + jitter(attempt)` after each non-final attempt,
and raise a QUERY_ERROR carrying the final underlying message — the
`part_009` variant's message also carries the attempt count k, while the
`client.ts` variant's message is `"Query failed: <original>"` without it;
the failure is never downgraded to a result row list. -/
theorem retry_exhaustion_amended (exec : Nat → Except String (List Row))
    (msg : Nat → String) (k : Nat) (d : ℚ) (jit : Nat → ℚ)
    (hk : 1 ≤ k) (hexec : ∀ n, exec n = .error (msg n)) :
    (clientQuery exec k d jit).attemptsMade = k ∧
    (clientQuery exec k d jit).delays =
      (List.range' 1 (k - 1)).map (fun a => d * 2 ^ (a - 1) + jit a) ∧
    (clientQuery exec k d jit).result =
      .error ⟨"Query failed: " ++ msg k, "QUERY_ERROR"⟩ ∧
    (part009Query exec k d jit).attemptsMade = k ∧
    (part009Query exec k d jit).delays =
      (List.range' 1 (k - 1)).map (fun a => d * 2 ^ (a - 1) + jit a) ∧
    (part009Query exec k d jit).result =
      .error ⟨"Query failed after " ++ toString k ++ " attempts: " ++ msg k,
        "QUERY_ERROR"⟩ ∧
    exceptIsOk (clientQuery exec k d jit).result = false := by
  have hc := queryGo_always_fails exec msg k d jit clientQueryWrap hexec k 1 hk
    (by omega)
  have hp := queryGo_always_fails exec msg k d jit (part009QueryWrap k) hexec k 1
    hk (by omega)
  refine ⟨?_, ?_, ?_, ?_, ?_, ?_, ?_⟩ <;>
    simp [clientQuery, part009Query, hc, hp, clientQueryWrap, part009QueryWrap,
      exceptIsOk]

/-- Witness for `retry_exhaustion_amended` at `k = 3`. -/
theorem retry_exhaustion_amended_witness :
    (1 ≤ 3 ∧ ∀ n : Nat,
      (fun _ : Nat => (Except.error "boom" : Except String (List Row))) n =
        .error ((fun _ : Nat => "boom") n)) ∧
    (clientQuery (fun _ => .error "boom") 3 1 (fun _ => 0)).attemptsMade = 3 ∧
    (clientQuery (fun _ => .error "boom") 3 1 (fun _ => 0)).delays =
      (List.range' 1 (3 - 1)).map (fun a => (1 : ℚ) * 2 ^ (a - 1) + (fun _ : Nat => (0 : ℚ)) a) ∧
    (clientQuery (fun _ => .error "boom") 3 1 (fun _ => 0)).result =
      .error ⟨"Query failed: " ++ (fun _ : Nat => "boom") 3, "QUERY_ERROR"⟩ ∧
    (part009Query (fun _ => .error "boom") 3 1 (fun _ => 0)).attemptsMade = 3 ∧
    (part009Query (fun _ => .error "boom") 3 1 (fun _ => 0)).delays =
      (List.range' 1 (3 - 1)).map (fun a => (1 : ℚ) * 2 ^ (a - 1) + (fun _ : Nat => (0 : ℚ)) a) ∧
    (part009Query (fun _ => .error "boom") 3 1 (fun _ => 0)).result =
      .error ⟨"Query failed after " ++ toString 3 ++ " attempts: " ++ (fun _ : Nat => "boom") 3,
        "QUERY_ERROR"⟩ ∧
    exceptIsOk (clientQuery (fun _ => .error "boom") 3 1 (fun _ => 0)).result = false :=
  ⟨⟨by decide, fun _ => rfl⟩,
    retry_exhaustion_amended (fun _ => .error "boom") (fun _ => "boom") 3 1
      (fun _ => 0) (by decide) (fun _ => rfl)⟩

/-- Claim C4 counterexample: at `retryAttempts = 2` with a statement that
always fails with message `"boom"`, the `client.ts` executor makes 2
attempts but the raised error's message is `"Query failed: boom"`, which
contains no digit at all — it does not carry the attempt count the claim
requires. -/
theorem retry_message_lacks_attempt_count :
    (clientQuery (fun _ => .error "boom") 2 1 (fun _ => 0)).attemptsMade = 2 ∧
    (clientQuery (fun _ => .error "boom") 2 1 (fun _ => 0)).result =
      .error ⟨"Query failed: boom", "QUERY_ERROR"⟩ ∧
    ("Query failed: boom".toList.all (fun c => !c.isDigit)) = true := by
  refine ⟨rfl, rfl, by decide⟩

/-- With an open transaction buffer, the callback's writes only touch that
buffer: the committed store and the fault-injection field come through
unchanged and the buffer stays open. -/
theorem runWrites_open (ws : List (String × Int)) :
    ∀ (db b : Store) (rb : Option String),
      ∃ b2, runWrites { committed := db, txn := some b, rollbackFailure := rb } ws =
        { committed := db, txn := some b2, rollbackFailure := rb } := by
  induction ws with
  | nil => intro db b rb; exact ⟨b, rfl⟩
  | cons kv ws ih =>
    intro db b rb
    obtain ⟨b2, h2⟩ := ih db (storeSet b kv.1 kv.2) rb
    refine ⟨b2, ?_⟩
    have hw : writeTx { committed := db, txn := some b, rollbackFailure := rb } kv.1 kv.2 =
        { committed := db, txn := some (storeSet b kv.1 kv.2), rollbackFailure := rb } := by
      simp [writeTx]
    calc runWrites { committed := db, txn := some b, rollbackFailure := rb } (kv :: ws)
        = runWrites { committed := db, txn := some (storeSet b kv.1 kv.2), rollbackFailure := rb } ws := by
          simp [runWrites, List.foldl_cons, hw]
      _ = { committed := db, txn := some b2, rollbackFailure := rb } := h2

/-- Claim C1: on each of the three dialect paths of `DBClient.transaction`,
a callback that throws after performing any number of writes leaves the
visible database exactly as it was before the transaction began — no write
is published — and the transaction call itself surfaces an error rather
than a success; the pooled paths open with the dialect's own begin
statement. -/
theorem transaction_atomicity (db : Store) (cb : TxCallback) (e : String)
    (rb : Option String) (he : cb.outcome = .error e) :
    (sqliteTransaction db cb).2 = db ∧
    exceptIsOk (sqliteTransaction db cb).1 = false ∧
    (mysqlTransaction db cb rb).db = db ∧
    exceptIsOk (mysqlTransaction db cb rb).result = false ∧
    (pgTransaction db cb rb).db = db ∧
    exceptIsOk (pgTransaction db cb rb).result = false ∧
    (mysqlTransaction db cb rb).control.head? = some "START TRANSACTION" ∧
    (pgTransaction db cb rb).control.head? = some "BEGIN" := by
  obtain ⟨b2, hw⟩ := runWrites_open cb.writes db db rb
  obtain ⟨b0, hw0⟩ := runWrites_open cb.writes db db none
  have hpool : ∀ s : String,
      (pooledTransaction s db cb rb).db = db ∧
      exceptIsOk (pooledTransaction s db cb rb).result = false ∧
      (pooledTransaction s db cb rb).control.head? = some s := by
    intro s
    simp only [pooledTransaction, he, beginTx, hw]
    cases rb <;> simp [rollbackTx, exceptIsOk]
  refine ⟨?_, ?_, (hpool "START TRANSACTION").1, (hpool "START TRANSACTION").2.1,
    (hpool "BEGIN").1, (hpool "BEGIN").2.1,
    (hpool "START TRANSACTION").2.2, (hpool "BEGIN").2.2⟩
  · simp only [sqliteTransaction, he, beginTx, hw0]
    simp [rollbackTx]
  · simp only [sqliteTransaction, he, beginTx, hw0]
    simp [rollbackTx, exceptIsOk]

/-- Witness for `transaction_atomicity`: one write then a thrown error. -/
theorem transaction_atomicity_witness :
    (sqliteTransaction [("a", 1)] ⟨[("a", 2)], .error "boom"⟩).2 = [("a", 1)] ∧
    exceptIsOk (sqliteTransaction [("a", 1)] ⟨[("a", 2)], .error "boom"⟩).1 = false ∧
    (mysqlTransaction [("a", 1)] ⟨[("a", 2)], .error "boom"⟩ none).db = [("a", 1)] ∧
    exceptIsOk (mysqlTransaction [("a", 1)] ⟨[("a", 2)], .error "boom"⟩ none).result = false ∧
    (pgTransaction [("a", 1)] ⟨[("a", 2)], .error "boom"⟩ none).db = [("a", 1)] ∧
    exceptIsOk (pgTransaction [("a", 1)] ⟨[("a", 2)], .error "boom"⟩ none).result = false ∧
    (mysqlTransaction [("a", 1)] ⟨[("a", 2)], .error "boom"⟩ none).control.head? =
      some "START TRANSACTION" ∧
    (pgTransaction [("a", 1)] ⟨[("a", 2)], .error "boom"⟩ none).control.head? =
      some "BEGIN" :=
  transaction_atomicity [("a", 1)] ⟨[("a", 2)], .error "boom"⟩ "boom" none rfl

/-- Claim C8 counterexample: when the callback throws `"boom"` and the
`ROLLBACK` statement itself fails, the error surfaced by the pooled
Postgres transaction path is the rollback query failure, not the original
callback error — refuting the claim that the original error is never
masked.  The connection is still released. -/
theorem tx_rollback_failure_masks_original :
    (pgTransaction [("a", 1)] ⟨[("a", 2)], .error "boom"⟩
        (some "connection lost")).result =
      .error (.stabilize ⟨"Query failed: connection lost", "QUERY_ERROR"⟩) ∧
    TxError.stabilize ⟨"Query failed: connection lost", "QUERY_ERROR"⟩ ≠
      TxError.cb "boom" ∧
    (pgTransaction [("a", 1)] ⟨[("a", 2)], .error "boom"⟩
        (some "connection lost")).released = true := by
  refine ⟨rfl, by decide, rfl⟩

/-- Claim C8 (amended): the pooled transaction paths always release the
checked-out connection; when the callback throws and `ROLLBACK` succeeds
the original callback error is rethrown, but when `ROLLBACK` itself fails
its query error is surfaced instead (masking the original); in every case
the committed store is unchanged. -/
theorem tx_release_and_rollback_error_routing (beginStmt : String)
    (db : Store) (cbAny cb : TxCallback) (rbAny rb : Option String)
    (m e : String) (he : cb.outcome = .error e) :
    (pooledTransaction beginStmt db cbAny rbAny).released = true ∧
    (pooledTransaction beginStmt db cb none).result = .error (.cb e) ∧
    (pooledTransaction beginStmt db cb (some m)).result =
      .error (.stabilize ⟨"Query failed: " ++ m, "QUERY_ERROR"⟩) ∧
    (pooledTransaction beginStmt db cb rb).db = db := by
  obtain ⟨b2, hw⟩ := runWrites_open cb.writes db db rb
  obtain ⟨bn, hwn⟩ := runWrites_open cb.writes db db none
  obtain ⟨bm, hwm⟩ := runWrites_open cb.writes db db (some m)
  refine ⟨?_, ?_, ?_, ?_⟩
  · cases houtcome : cbAny.outcome with
    | ok u => simp [pooledTransaction, houtcome]
    | error e2 =>
      simp only [pooledTransaction, houtcome]
      cases hr : rollbackTx (runWrites
          (beginTx { committed := db, txn := none, rollbackFailure := rbAny })
          cbAny.writes) <;> simp
  · simp only [pooledTransaction, he, beginTx, hwn]
    simp [rollbackTx, clientQueryWrap]
  · simp only [pooledTransaction, he, beginTx, hwm]
    simp [rollbackTx, clientQueryWrap]
  · simp only [pooledTransaction, he, beginTx, hw]
    cases rb <;> simp [rollbackTx]

/-- Witness for `tx_release_and_rollback_error_routing`. -/
theorem tx_release_and_rollback_error_routing_witness :
    (pooledTransaction "BEGIN" [("a", 1)] ⟨[], .ok ()⟩ none).released = true ∧
    (pooledTransaction "BEGIN" [("a", 1)] ⟨[("a", 2)], .error "boom"⟩ none).result =
      .error (.cb "boom") ∧
    (pooledTransaction "BEGIN" [("a", 1)] ⟨[("a", 2)], .error "boom"⟩
        (some "connection lost")).result =
      .error (.stabilize ⟨"Query failed: " ++ "connection lost", "QUERY_ERROR"⟩) ∧
    (pooledTransaction "BEGIN" [("a", 1)] ⟨[("a", 2)], .error "boom"⟩ none).db =
      [("a", 1)] :=
  tx_release_and_rollback_error_routing "BEGIN" [("a", 1)] ⟨[], .ok ()⟩
    ⟨[("a", 2)], .error "boom"⟩ none none "connection lost" "boom" rfl

/-- When every migration's ledger key is its own name and every name is
already in the ledger, the runner skips everything: the ledger is unchanged
and no `up` statement runs. -/
theorem migrateGo_skip_all (key : Migration → Nat → String) :
    ∀ (migs : List Migration) (idx : Nat) (ledger : List String),
      (∀ m ∈ migs, ∀ i, key m i = m.name) →
      (∀ m ∈ migs, m.name ∈ ledger) →
      migrateGo key migs idx ledger = (ledger, []) := by
  intro migs
  induction migs with
  | nil => intro idx ledger _ _; rfl
  | cons m rest ih =>
    intro idx ledger hkey hmem
    have hk : key m idx = m.name := hkey m (by simp) idx
    have hm : m.name ∈ ledger := hmem m (by simp)
    simp only [migrateGo, hk, hm, if_pos]
    exact ih (idx + 1) ledger (fun m2 h2 => hkey m2 (by simp [h2]))
      (fun m2 h2 => hmem m2 (by simp [h2]))

/-- Fresh run: when every migration's ledger key is its own name, the names
are distinct, and none is in the ledger yet, the runner applies every
migration exactly once in order, appending each name to the ledger. -/
theorem migrateGo_fresh (key : Migration → Nat → String) :
    ∀ (migs : List Migration) (idx : Nat) (ledger : List String),
      (∀ m ∈ migs, ∀ i, key m i = m.name) →
      (migs.map Migration.name).Nodup →
      (∀ m ∈ migs, m.name ∉ ledger) →
      migrateGo key migs idx ledger =
        (ledger ++ migs.map Migration.name, (migs.map Migration.up).flatten) := by
  intro migs
  induction migs with
  | nil => intro idx ledger _ _ _; simp [migrateGo]
  | cons m rest ih =>
    intro idx ledger hkey hnd hnotmem
    have hk : key m idx = m.name := hkey m (by simp) idx
    have hm : m.name ∉ ledger := hnotmem m (by simp)
    have hnd2 : m.name ∉ rest.map Migration.name ∧ (rest.map Migration.name).Nodup := by
      rw [List.map_cons] at hnd
      exact List.nodup_cons.mp hnd
    have hndr : (rest.map Migration.name).Nodup := hnd2.2
    have hhead : m.name ∉ rest.map Migration.name := hnd2.1
    have hrec := ih (idx + 1) (ledger ++ [m.name])
      (fun m2 h2 => hkey m2 (by simp [h2]))
      hndr
      (fun m2 h2 => by
        intro hcontra
        rcases List.mem_append.mp hcontra with h | h
        · exact hnotmem m2 (by simp [h2]) h
        · have : m2.name = m.name := by simpa using h
          exact hhead (this ▸ List.mem_map_of_mem Migration.name h2))
    simp only [migrateGo, hk, hm, if_neg, hrec]
    simp [List.append_assoc]

/-- Claim C3 counterexample: the first `runMigrations` keys the ledger on a
per-run timestamped name, so a second run over the same one-migration set
re-executes its `up` statement instead of skipping it. -/
theorem migrations_v1_reapplies :
    (runMigrationsV1 "20250101" []
      [{ name := "m1", up := ["CREATE TABLE t (id INT)"], down := ["DROP TABLE t"] }]).2 =
      ["CREATE TABLE t (id INT)"] ∧
    (runMigrationsV1 "20250102"
      (runMigrationsV1 "20250101" []
        [{ name := "m1", up := ["CREATE TABLE t (id INT)"], down := ["DROP TABLE t"] }]).1
      [{ name := "m1", up := ["CREATE TABLE t (id INT)"], down := ["DROP TABLE t"] }]).2 =
      ["CREATE TABLE t (id INT)"] ∧
    (["CREATE TABLE t (id INT)"] : List String) ≠ [] := by
  refine ⟨rfl, by decide, by decide⟩

/-- Claim C3 (amended): for the second `runMigrations`, over migrations
carrying stable, distinct, non-empty names, the first run from an empty
ledger applies every migration exactly once (its `up` trace is the
concatenation of all `up` lists, and the ledger records every name), and a
second run against the resulting ledger executes zero `up` statements. -/
theorem migrations_v2_idempotent (migs : List Migration) (now1 now2 : Nat)
    (hne : ∀ m ∈ migs, m.name ≠ "")
    (hnd : (migs.map Migration.name).Nodup) :
    (runMigrationsV2 now1 [] migs).2 = (migs.map Migration.up).flatten ∧
    (runMigrationsV2 now1 [] migs).1 = migs.map Migration.name ∧
    (runMigrationsV2 now2 (runMigrationsV2 now1 [] migs).1 migs).2 = [] := by
  have hkey1 : ∀ m ∈ migs, ∀ i, migrationKeyV2 m i now1 = m.name := by
    intro m hm i
    simp [migrationKeyV2, hne m hm]
  have hkey2 : ∀ m ∈ migs, ∀ i, migrationKeyV2 m i now2 = m.name := by
    intro m hm i
    simp [migrationKeyV2, hne m hm]
  have hfresh := migrateGo_fresh (fun m index => migrationKeyV2 m index now1)
    migs 0 [] hkey1 hnd (by simp)
  have h1 : runMigrationsV2 now1 [] migs =
      (migs.map Migration.name, (migs.map Migration.up).flatten) := by
    simpa [runMigrationsV2] using hfresh
  refine ⟨by rw [h1], by rw [h1], ?_⟩
  rw [h1]
  have hskip := migrateGo_skip_all (fun m index => migrationKeyV2 m index now2)
    migs 0 (migs.map Migration.name) hkey2
    (fun m hm => List.mem_map_of_mem Migration.name hm)
  simpa [runMigrationsV2] using congrArg Prod.snd hskip

/-- Witness for `migrations_v2_idempotent` on a two-migration set. -/
theorem migrations_v2_idempotent_witness :
    (runMigrationsV2 7 []
      [{ name := "m1", up := ["u1"], down := ["d1"] },
       { name := "m2", up := ["u2a", "u2b"], down := ["d2"] }]).2 =
      (([{ name := "m1", up := ["u1"], down := ["d1"] },
         { name := "m2", up := ["u2a", "u2b"], down := ["d2"] }] : List Migration).map
        Migration.up).flatten ∧
    (runMigrationsV2 7 []
      [{ name := "m1", up := ["u1"], down := ["d1"] },
       { name := "m2", up := ["u2a", "u2b"], down := ["d2"] }]).1 =
      ([{ name := "m1", up := ["u1"], down := ["d1"] },
        { name := "m2", up := ["u2a", "u2b"], down := ["d2"] }] : List Migration).map
        Migration.name ∧
    (runMigrationsV2 8
      (runMigrationsV2 7 []
        [{ name := "m1", up := ["u1"], down := ["d1"] },
         { name := "m2", up := ["u2a", "u2b"], down := ["d2"] }]).1
      [{ name := "m1", up := ["u1"], down := ["d1"] },
       { name := "m2", up := ["u2a", "u2b"], down := ["d2"] }]).2 = [] :=
  migrations_v2_idempotent
    [{ name := "m1", up := ["u1"], down := ["d1"] },
     { name := "m2", up := ["u2a", "u2b"], down := ["d2"] }] 7 8
    (by decide) (by decide)

/-- Setting a property then reading it back yields the written value. -/
theorem lookupVal_setVal_self (k : String) (v : JSVal) :
    ∀ p : Props, lookupVal (setVal p k v) k = v := by
  intro p
  induction p with
  | nil => simp [setVal, lookupVal]
  | cons kv rest ih =>
    by_cases h : kv.1 = k
    · simp [setVal, lookupVal, h]
    · simp [setVal, lookupVal, h, ih]

/-- Setting one property leaves reads of any other property unchanged. -/
theorem lookupVal_setVal_ne (k k2 : String) (v : JSVal) (h : k ≠ k2) :
    ∀ p : Props, lookupVal (setVal p k2 v) k = lookupVal p k := by
  intro p
  induction p with
  | nil =>
    have : ¬(k2 = k) := fun h2 => h h2.symm
    simp [setVal, lookupVal, this]
  | cons kv rest ih =>
    by_cases h1 : kv.1 = k2
    · have : ¬(k2 = k) := fun h2 => h h2.symm
      simp [setVal, lookupVal, h1, this]
    · simp only [setVal, h1, if_neg]
      by_cases h2 : kv.1 = k
      · simp [lookupVal, h2]
      · simp [lookupVal, h2, ih]

/-- Folding writes over keys not containing `c` leaves the read of `c`
unchanged. -/
theorem lookupVal_foldl_notmem (f : String → JSVal) (c : String) :
    ∀ (ks : List String) (p : Props), c ∉ ks →
      lookupVal (ks.foldl (fun acc c2 => setVal acc c2 (f c2)) p) c =
        lookupVal p c := by
  intro ks
  induction ks with
  | nil => intro p _; rfl
  | cons k rest ih =>
    intro p hmem
    have hck : c ≠ k := fun h => hmem (by simp [h])
    have hrest : c ∉ rest := fun h => hmem (by simp [h])
    simp only [List.foldl_cons]
    rw [ih (setVal p k (f k)) hrest, lookupVal_setVal_ne c k (f k) hck]

/-- Folding writes of `f` over distinct keys makes the read of each written
key yield `f` of it. -/
theorem lookupVal_foldl_mem (f : String → JSVal) (c : String) :
    ∀ (ks : List String) (p : Props), ks.Nodup → c ∈ ks →
      lookupVal (ks.foldl (fun acc c2 => setVal acc c2 (f c2)) p) c = f c := by
  intro ks
  induction ks with
  | nil => intro p _ h; cases h
  | cons k rest ih =>
    intro p hnd hmem
    have hnd2 := List.nodup_cons.mp hnd
    simp only [List.foldl_cons]
    rcases List.mem_cons.mp hmem with h | h
    · subst h
      rw [lookupVal_foldl_notmem f c rest (setVal p c (f c)) hnd2.1,
        lookupVal_setVal_self]
    · exact ih (setVal p k (f k)) hnd2.2 h

/-- Overwriting an existing live row makes the subsequent lookup return the
new props. -/
theorem findOneLive_putLive (id : Int) (props : Props) :
    ∀ live : List (Int × Props), (findOneLive live id).isSome →
      findOneLive (putLive live id props) id = some props := by
  intro live
  induction live with
  | nil => intro h; simp [findOneLive] at h
  | cons r rest ih =>
    intro h
    by_cases h1 : r.1 = id
    · simp [putLive, findOneLive, h1]
    · simp only [findOneLive, h1, if_neg] at h
      simp [putLive, findOneLive, h1, ih h]

/-- Unfolding of `repoRollback` when the requested version's history row is
found. -/
theorem repoRollback_found (columns : List String) (st : RepoState)
    (id version now : Int) (r : HistRow) (rest : List HistRow)
    (hfilter : st.hist.filter (fun row => row.id = id && row.version = version) =
      r :: rest) :
    repoRollback columns st id version now =
      (let live2 :=
        match findOneLive st.live id with
        | some before =>
          putLive st.live id
            ((columns.filter (fun c => c ≠ "id")).foldl
              (fun acc c => setVal acc c (lookupVal r.snapshot c)) before)
        | none => st.live
      let st2 := writeHistory columns { live := live2, hist := st.hist } id
        (setVal r.snapshot "version" (.num (version + 1))) "update" now
      .ok (st2, findOneLive st2.live id)) := by
  simp only [repoRollback, hfilter, List.take]

/-- Claim C5 (amended): `rollback(id, version)` fails with a
`ROLLBACK_ERROR` when the requested version does not exist; when the
version exists and the entity has a live row, it succeeds, returns the
freshly re-read live record, sets every non-`id` column of the live row to
the historical snapshot's value, and appends one history row tagged
`"update"` whose version is the REQUESTED version plus one (not the current
maximum version plus one). -/
theorem rollback_amended (columns : List String) (st : RepoState)
    (id version now : Int) (r : HistRow) (rest : List HistRow) (before : Props)
    (hcols : columns.Nodup) (hver : 1 ≤ version)
    (hfilter : st.hist.filter (fun row => row.id = id && row.version = version) =
      r :: rest)
    (hlive : findOneLive st.live id = some before) :
    exceptIsOk (repoRollback columns st id version now) = true ∧
    (exceptHist (repoRollback columns st id version now)).map
      (fun row => (row.id, row.version, row.operation, row.validTo)) =
      st.hist.map (fun row => (row.id, row.version, row.operation, row.validTo)) ++
        [(id, version + 1, "update", (none : Option Int))] ∧
    (∀ c ∈ columns, c ≠ "id" →
      retLookup (repoRollback columns st id version now) c =
        lookupVal r.snapshot c) ∧
    exceptRet (repoRollback columns st id version now) =
      findOneLive (exceptLive (repoRollback columns st id version now)) id ∧
    (∀ st3 : RepoState,
      st3.hist.filter (fun row => row.id = id && row.version = version) = [] →
      repoRollback columns st3 id version now =
        .error ⟨"Version not found", "ROLLBACK_ERROR"⟩) := by
  have hrw := repoRollback_found columns st id version now r rest hfilter
  have hverNe : ¬(version + 1 = 0) := by omega
  set updated := (columns.filter (fun c => c ≠ "id")).foldl
    (fun acc c => setVal acc c (lookupVal r.snapshot c)) before with hupd
  have hlive2 : findOneLive (putLive st.live id updated) id = some updated :=
    findOneLive_putLive id updated st.live (by rw [hlive]; rfl)
  refine ⟨?_, ?_, ?_, ?_, ?_⟩
  · rw [hrw]
    simp [hlive, exceptIsOk]
  · rw [hrw]
    simp only [hlive, exceptHist, writeHistory, List.map_append]
    simp [jsVersionOr1, lookupVal_setVal_self, hverNe]
  · intro c hc hcne
    rw [hrw]
    simp only [hlive, retLookup, writeHistory]
    have hmem : c ∈ columns.filter (fun c2 => c2 ≠ "id") := by
      simp [List.mem_filter, hc, hcne]
    have hnd : (columns.filter (fun c2 => c2 ≠ "id")).Nodup := hcols.filter _
    have := lookupVal_foldl_mem (fun c2 => lookupVal r.snapshot c2) c
      (columns.filter (fun c2 => c2 ≠ "id")) before hnd hmem
    simp only [hlive2]
    exact this
  · rw [hrw]
    simp [hlive, exceptRet, exceptLive, writeHistory]
  · intro st3 hempty
    simp only [repoRollback, hempty, List.take]

/-- Witness for `rollback_amended` on a three-version entity, rolled back to
version 2. -/
theorem rollback_amended_witness :
    exceptIsOk (repoRollback ["id", "name"]
      { live := [(1, [("id", .num 1), ("name", .str "c")])]
        hist :=
          [{ id := 1, version := 1, operation := "insert",
             snapshot := [("id", .num 1), ("name", .str "a")],
             validFrom := 10, validTo := none, modifiedBy := "system" },
           { id := 1, version := 2, operation := "update",
             snapshot := [("id", .num 1), ("name", .str "b")],
             validFrom := 20, validTo := none, modifiedBy := "system" },
           { id := 1, version := 3, operation := "update",
             snapshot := [("id", .num 1), ("name", .str "c")],
             validFrom := 30, validTo := none, modifiedBy := "system" }] }
      1 2 40) = true ∧
    retLookup (repoRollback ["id", "name"]
      { live := [(1, [("id", .num 1), ("name", .str "c")])]
        hist :=
          [{ id := 1, version := 1, operation := "insert",
             snapshot := [("id", .num 1), ("name", .str "a")],
             validFrom := 10, validTo := none, modifiedBy := "system" },
           { id := 1, version := 2, operation := "update",
             snapshot := [("id", .num 1), ("name", .str "b")],
             validFrom := 20, validTo := none, modifiedBy := "system" },
           { id := 1, version := 3, operation := "update",
             snapshot := [("id", .num 1), ("name", .str "c")],
             validFrom := 30, validTo := none, modifiedBy := "system" }] }
      1 2 40) "name" =
      lookupVal [("id", JSVal.num 1), ("name", JSVal.str "b")] "name" := by
  refine ⟨(rollback_amended ["id", "name"]
      ({ live := [(1, [("id", .num 1), ("name", .str "c")])],
         hist :=
          [{ id := 1, version := 1, operation := "insert",
             snapshot := [("id", .num 1), ("name", .str "a")],
             validFrom := 10, validTo := none, modifiedBy := "system" },
           { id := 1, version := 2, operation := "update",
             snapshot := [("id", .num 1), ("name", .str "b")],
             validFrom := 20, validTo := none, modifiedBy := "system" },
           { id := 1, version := 3, operation := "update",
             snapshot := [("id", .num 1), ("name", .str "c")],
             validFrom := 30, validTo := none, modifiedBy := "system" }] })
      1 2 40
      { id := 1, version := 2, operation := "update",
        snapshot := [("id", .num 1), ("name", .str "b")],
        validFrom := 20, validTo := none, modifiedBy := "system" } []
      [("id", .num 1), ("name", .str "c")]
      (by decide) (by decide) (by decide) (by decide)).1,
    (rollback_amended ["id", "name"]
      ({ live := [(1, [("id", .num 1), ("name", .str "c")])],
         hist :=
          [{ id := 1, version := 1, operation := "insert",
             snapshot := [("id", .num 1), ("name", .str "a")],
             validFrom := 10, validTo := none, modifiedBy := "system" },
           { id := 1, version := 2, operation := "update",
             snapshot := [("id", .num 1), ("name", .str "b")],
             validFrom := 20, validTo := none, modifiedBy := "system" },
           { id := 1, version := 3, operation := "update",
             snapshot := [("id", .num 1), ("name", .str "c")],
             validFrom := 30, validTo := none, modifiedBy := "system" }] })
      1 2 40
      { id := 1, version := 2, operation := "update",
        snapshot := [("id", .num 1), ("name", .str "b")],
        validFrom := 20, validTo := none, modifiedBy := "system" } []
      [("id", .num 1), ("name", .str "c")]
      (by decide) (by decide) (by decide) (by decide)).2.2.1 "name" (by decide) (by decide)⟩

/-- Claim C5 counterexample: rolling back to version 2 while the current
version is 3 appends a history row at version 3 (requested version plus
one), so the history shows a duplicated version 3 and no version-4 row —
refuting the claimed new version-4 row. -/
theorem rollback_no_version4_row :
    (exceptHist (repoRollback ["id", "name"]
      { live := [(1, [("id", .num 1), ("name", .str "c")])]
        hist :=
          [{ id := 1, version := 1, operation := "insert",
             snapshot := [("id", .num 1), ("name", .str "a")],
             validFrom := 10, validTo := none, modifiedBy := "system" },
           { id := 1, version := 2, operation := "update",
             snapshot := [("id", .num 1), ("name", .str "b")],
             validFrom := 20, validTo := none, modifiedBy := "system" },
           { id := 1, version := 3, operation := "update",
             snapshot := [("id", .num 1), ("name", .str "c")],
             validFrom := 30, validTo := none, modifiedBy := "system" }] }
      1 2 40)).map (fun row => (row.version, row.operation)) =
      [(1, "insert"), (2, "update"), (3, "update"), (3, "update")] ∧
    ((exceptHist (repoRollback ["id", "name"]
      { live := [(1, [("id", .num 1), ("name", .str "c")])]
        hist :=
          [{ id := 1, version := 1, operation := "insert",
             snapshot := [("id", .num 1), ("name", .str "a")],
             validFrom := 10, validTo := none, modifiedBy := "system" },
           { id := 1, version := 2, operation := "update",
             snapshot := [("id", .num 1), ("name", .str "b")],
             validFrom := 20, validTo := none, modifiedBy := "system" },
           { id := 1, version := 3, operation := "update",
             snapshot := [("id", .num 1), ("name", .str "c")],
             validFrom := 30, validTo := none, modifiedBy := "system" }] }
      1 2 40)).map (fun row => row.version)).contains 4 = false := by
  refine ⟨by decide, by decide⟩

/-- Claim C6: `create` then `update` then `update` on a versioned model with
columns `id` and `name` produces three history rows whose versions are
1, 1, 1 — the incremented version is written only to the history row and
never persisted to the live row, so every update recomputes version 1; the
sequence is not strictly increasing. -/
theorem history_versions_not_increasing :
    Except.map
      (fun r3 : RepoState × Props => (repoHistory r3.1 1).map (fun row => row.version))
      (Except.bind
        (repoUpdate ["id", "name"]
          (repoCreate ["id", "name"] { live := [], hist := [] } 1
            [("name", .str "a")] 10)
          1 [("name", .str "b")] 20)
        (fun r2 => repoUpdate ["id", "name"] r2.1 1 [("name", .str "c")] 30)) =
      .ok [1, 1, 1] ∧
    ¬ List.Chain' (fun a b => a < b) ([1, 1, 1] : List Int) := by
  refine ⟨rfl, by simp [List.chain'_cons]⟩

/-- Claim C7: with exactly two history rows for an entity — versions
`r1.version < r2.version`, validity starting at `T1 < T2`, no `valid_to` on
the later row, and the earlier row either still open or closed exactly at
`T2` — `asOf` returns the earlier row for any date in `[T1, T2)`, the later
row for any date at or after `T2`, and null for any date before `T1`. -/
theorem asof_correctness (st : RepoState) (id T1 T2 : Int) (r1 r2 : HistRow)
    (hhist : st.hist = [r1, r2])
    (hid1 : r1.id = id) (hid2 : r2.id = id)
    (hf1 : r1.validFrom = T1) (hf2 : r2.validFrom = T2)
    (hT : T1 < T2)
    (hto2 : r2.validTo = none)
    (hto1 : r1.validTo = none ∨ r1.validTo = some T2)
    (hv : r1.version < r2.version) :
    (∀ d, T1 ≤ d → d < T2 → repoAsOf st id d = some r1) ∧
    (∀ d, T2 ≤ d → repoAsOf st id d = some r2) ∧
    (∀ d, d < T1 → repoAsOf st id d = none) := by
  refine ⟨?_, ?_, ?_⟩
  · intro d hd1 hd2
    have hnle : ¬(T2 ≤ d) := by omega
    have hm2 : asOfMatches id d r2 = false := by
      simp [asOfMatches, hf2, hnle]
    have hm1 : asOfMatches id d r1 = true := by
      rcases hto1 with h | h
      · simp [asOfMatches, hid1, hf1, h, hd1]
      · simp [asOfMatches, hid1, hf1, h, hd1, hd2]
    simp [repoAsOf, hhist, List.filter, hm1, hm2, sortByVersionDesc,
      insertByVersionDesc]
  · intro d hd2
    have hd1 : T1 ≤ d := by omega
    have hm2 : asOfMatches id d r2 = true := by
      simp [asOfMatches, hid2, hf2, hto2, hd2]
    rcases hto1 with h | h
    · have hm1 : asOfMatches id d r1 = true := by
        simp [asOfMatches, hid1, hf1, h, hd1]
      have hviv : ¬(r2.version < r1.version) := by omega
      simp [repoAsOf, hhist, List.filter, hm1, hm2, sortByVersionDesc,
        insertByVersionDesc, hviv]
    · have hnlt : ¬(d < T2) := by omega
      have hm1 : asOfMatches id d r1 = false := by
        simp [asOfMatches, hid1, hf1, h, hnlt]
      simp [repoAsOf, hhist, List.filter, hm1, hm2, sortByVersionDesc,
        insertByVersionDesc]
  · intro d hd
    have hnle1 : ¬(T1 ≤ d) := by omega
    have hnle2 : ¬(T2 ≤ d) := by omega
    have hm1 : asOfMatches id d r1 = false := by
      simp [asOfMatches, hf1, hnle1]
    have hm2 : asOfMatches id d r2 = false := by
      simp [asOfMatches, hf2, hnle2]
    simp [repoAsOf, hhist, List.filter, hm1, hm2, sortByVersionDesc]

/-- Witness for `asof_correctness` on two concrete history rows. -/
theorem asof_correctness_witness :
    repoAsOf
      { live := [],
        hist := [{ id := 1, version := 1, operation := "insert",
                   snapshot := [], validFrom := 10, validTo := none,
                   modifiedBy := "system" },
                 { id := 1, version := 2, operation := "update",
                   snapshot := [], validFrom := 20, validTo := none,
                   modifiedBy := "system" }] }
      1 15 =
      some { id := 1, version := 1, operation := "insert", snapshot := [],
             validFrom := 10, validTo := none, modifiedBy := "system" } ∧
    repoAsOf
      { live := [],
        hist := [{ id := 1, version := 1, operation := "insert",
                   snapshot := [], validFrom := 10, validTo := none,
                   modifiedBy := "system" },
                 { id := 1, version := 2, operation := "update",
                   snapshot := [], validFrom := 20, validTo := none,
                   modifiedBy := "system" }] }
      1 25 =
      some { id := 1, version := 2, operation := "update", snapshot := [],
             validFrom := 20, validTo := none, modifiedBy := "system" } ∧
    repoAsOf
      { live := [],
        hist := [{ id := 1, version := 1, operation := "insert",
                   snapshot := [], validFrom := 10, validTo := none,
                   modifiedBy := "system" },
                 { id := 1, version := 2, operation := "update",
                   snapshot := [], validFrom := 20, validTo := none,
                   modifiedBy := "system" }] }
      1 5 = none := by
  have h := asof_correctness
    { live := [],
      hist := [{ id := 1, version := 1, operation := "insert",
                 snapshot := [], validFrom := 10, validTo := none,
                 modifiedBy := "system" },
               { id := 1, version := 2, operation := "update",
                 snapshot := [], validFrom := 20, validTo := none,
                 modifiedBy := "system" }] }
    1 10 20
    { id := 1, version := 1, operation := "insert", snapshot := [],
      validFrom := 10, validTo := none, modifiedBy := "system" }
    { id := 1, version := 2, operation := "update", snapshot := [],
      validFrom := 20, validTo := none, modifiedBy := "system" }
    rfl rfl rfl rfl rfl (by decide) rfl (Or.inl rfl) (by decide)
  exact ⟨h.1 15 (by decide) (by decide), h.2.1 25 (by decide),
    h.2.2 5 (by decide)⟩

end Stabilize
